import Mathlib

/-!
Shallow embedding of the quiz-bot core (src/bot.py): the catalog store,
the catalog-ingestion validator, the session state machine
(`_start_quiz`, `_send_question`, `_handle_answer`, `_complete_quiz`,
the `retake_` callback branch) and the scoring/leaderboard aggregator
(`get_user_total_score`, `get_top_scorers_weekly`, `get_all_scores`).

Python ints that are provably non-negative in every reachable state
(scores, indices, lengths) are modelled as `Nat`; SQL sums, which can be
NULL, as `Option Int`.  The message-transport layer (telebot calls,
message ids, chat ids) is out of scope; persisted writes of the progress
row are recorded explicitly as a list of row states, in order.
-/

namespace QuizBot

/-- The `Question` dataclass of src/bot.py: `question`, `options`,
`correct` (0-based index into `options`), `explanation`.  `correct` is a
Python int; catalog ingestion guarantees `0 <= correct < len(options)`,
so it is modelled as `Nat`. -/
structure Question where
  question : String
  options : List String
  correct : Nat
  explanation : String
deriving DecidableEq, Repr

/-- The mutable fields of the `QuizProgress` dataclass / `user_progress`
row: `current_index`, `score`, `answers` (JSON list of chosen option
indices), `completed`.  The key `(user_id, chapter_id)` and the
rendering-only `last_message_id` are not modelled. -/
structure QuizProgress where
  current_index : Nat
  score : Nat
  answers : List Nat
  completed : Bool
deriving DecidableEq, Repr

/-- The all-zero default row that `DatabaseManager.get_progress` returns
when no row exists for `(user_id, chapter_id)`. -/
def QuizProgress.fresh : QuizProgress :=
  { current_index := 0, score := 0, answers := [], completed := false }

/-! ## Catalog-ingestion validator (`QuizService.validate_quiz_data`) -/

/-- One raw JSON object of an uploaded question set.  A field is
`some v` when present with the type the code can use, `none` when absent
or of an unusable type (either way `validate_quiz_data` returns `False`:
a missing field fails the `all(field in question ...)` check, and a
mistyped `options`/`correct` fails the `isinstance` check or raises,
which the bare `except` turns into `False`). -/
structure RawEntry where
  question : Option String
  options : Option (List String)
  correct : Option Int
  explanation : Option String
deriving DecidableEq, Repr

/-- `QuizService.validate_quiz_data` on a JSON array: every entry must
have all four required fields, `options` a list with `len >= 2`, and
`0 <= correct < len(options)`.  Note the code accepts an empty array
(the `for` loop body never runs) and never inspects the text of
`question`, so an empty prompt passes. -/
def validate_quiz_data (quiz_data : List RawEntry) : Bool :=
  quiz_data.all fun e =>
    e.question.isSome && e.explanation.isSome &&
      (match e.options, e.correct with
       | some opts, some c => decide (2 ≤ opts.length) && decide (0 ≤ c) && decide (c < (opts.length : Int))
       | _, _ => false)

/-- The validity predicate stated by the spec (§4.4), written from the
spec's words for comparison with `validate_quiz_data`: a non-empty list
whose every entry has a non-empty prompt, an options list of length
at least 2, and a correct index in range. -/
def specValidQuestionSet (quiz_data : List RawEntry) : Bool :=
  !quiz_data.isEmpty &&
    quiz_data.all fun e =>
      (match e.question, e.options, e.correct with
       | some q, some opts, some c =>
         !q.isEmpty && decide (2 ≤ opts.length) && decide (0 ≤ c) && decide (c < (opts.length : Int))
       | _, _, _ => false)

/-! ## Catalog store (`quizzes` table) -/

/-- One row of the `quizzes` table: `id INTEGER PRIMARY KEY
AUTOINCREMENT`, `chapter_id INTEGER` (no uniqueness constraint),
`questions TEXT` (decoded). -/
structure QuizRow where
  id : Nat
  chapter_id : Nat
  questions : List Question
deriving DecidableEq, Repr

/-- The `quizzes` table: rows in rowid order, plus the next
autoincrement id. -/
structure CatalogDB where
  rows : List QuizRow
  next_id : Nat
deriving DecidableEq, Repr

def CatalogDB.empty : CatalogDB := { rows := [], next_id := 1 }

/-- The quizzes-table effect of `DatabaseManager.save_quiz` (subject and
chapter assumed to exist; otherwise the function returns early with no
write): `INSERT OR REPLACE INTO quizzes (chapter_id, questions)`.  The
only uniqueness constraint on the table is the autoincrement primary key
`id`, which is freshly assigned, so the statement never hits a conflict
and always inserts a new row — it does not replace an existing row for
the same `chapter_id`. -/
def save_quiz (db : CatalogDB) (chapter_id : Nat) (qs : List Question) : CatalogDB :=
  { rows := db.rows ++ [{ id := db.next_id, chapter_id := chapter_id, questions := qs }],
    next_id := db.next_id + 1 }

/-- `DatabaseManager.get_quiz`: `SELECT questions FROM quizzes WHERE
chapter_id = ?` followed by `fetchone()`.  The query has no `ORDER BY`;
SQLite scans an ordinary rowid table in rowid order, so `fetchone()`
yields the oldest matching row. -/
def get_quiz (db : CatalogDB) (chapter_id : Nat) : Option (List Question) :=
  (db.rows.find? fun r => r.chapter_id == chapter_id).map QuizRow.questions

/-! ## Session state machine -/

/-- The alert text chosen by `_handle_answer`'s `answer_callback_query`
calls: correct / incorrect feedback on acceptance, the "Already
answered!" notice, or the generic error alert produced by the bare
`except` (e.g. after an `IndexError` on `quiz[question_index]`). -/
inductive Feedback
  | correctAnswer
  | incorrectAnswer
  | alreadyAnswered
  | error
deriving DecidableEq, Repr

/-- The observable render outcome of a state-machine step. -/
inductive RenderAction
  | showQuestion (i : Nat)
  | showCompletion (score total : Nat)
  | offerRetake (score total : Nat)
  | quizUnavailable
  | errorMessage
deriving DecidableEq, Repr

/-- The percentage computed by `_complete_quiz`:
`(score / total) * 100` with Python true division, as an exact rational.
`none` models the `ZeroDivisionError` raised when `total = 0`. -/
def completionPercentage (score total : Nat) : Option ℚ :=
  if total = 0 then none else some ((score : ℚ) / (total : ℚ) * 100)

/-- The percentage computed by `QuizService.create_progress_bar`:
`min(100, (current / total) * 100)`.  `none` models the
`ZeroDivisionError` raised when `total = 0`. -/
def progress_bar_percentage (current total : Nat) : Option ℚ :=
  if total = 0 then none
  else some (min 100 ((current : ℚ) / (total : ℚ) * 100))

/-- `ModernQuizBot._complete_quiz`: reload the progress row, set
`completed = True`, persist, then compute `(score / total) * 100`.
Returns the in-memory row, the persisted writes (the `completed` write
happens before the division), and the percentage (`none` = the
`ZeroDivisionError` raised afterwards when the quiz is empty). -/
def complete_quiz (quiz : List Question) (p : QuizProgress) :
    QuizProgress × List QuizProgress × Option ℚ :=
  let p' := { p with completed := true }
  (p', [p'], completionPercentage p'.score quiz.length)

/-- `ModernQuizBot._send_question` at index `qi`: if `qi >= len(quiz)`
delegate to `_complete_quiz`; otherwise render question `qi` and persist
the row with `current_index = qi` (the code assigns
`progress.current_index = question_index`, it does not increment).
Returns (in-memory row, persisted writes, render action). -/
def send_question (quiz : List Question) (p : QuizProgress) (qi : Nat) :
    QuizProgress × List QuizProgress × RenderAction :=
  if quiz.length ≤ qi then
    let r := complete_quiz quiz p
    (r.1, r.2.1,
      match r.2.2 with
      | some _ => RenderAction.showCompletion r.1.score quiz.length
      | none => RenderAction.errorMessage)
  else
    let p' := { p with current_index := qi }
    (p', [p'], RenderAction.showQuestion qi)

/-- `ModernQuizBot._handle_answer` on callback data
`answer_<chapter>_<qi>_<ai>`, given the chapter's question list and the
stored progress row.  The code first evaluates `quiz[question_index]`
(an out-of-range `qi` raises `IndexError`, caught by the bare `except`:
generic error alert, no write).  Then `if len(progress.answers) <=
question_index` it accepts: append `answer_idx` to `answers`, increment
`score` iff `answer_idx == question.correct`, persist, then fall through
to `_send_question(question_index + 1)`.  Otherwise it answers
"Already answered!" with no write.  Returns (in-memory row, persisted
writes in order, feedback alert, follow-up render action if any). -/
def handle_answer (quiz : List Question) (p : QuizProgress) (qi ai : Nat) :
    QuizProgress × List QuizProgress × Feedback × Option RenderAction :=
  match quiz[qi]? with
  | none => (p, [], Feedback.error, none)
  | some q =>
    if p.answers.length ≤ qi then
      let p1 := { p with
        answers := p.answers ++ [ai],
        score := if ai = q.correct then p.score + 1 else p.score }
      let fb := if ai = q.correct then Feedback.correctAnswer else Feedback.incorrectAnswer
      let r := send_question quiz p1 (qi + 1)
      (r.1, p1 :: r.2.1, fb, some r.2.2)
    else
      (p, [], Feedback.alreadyAnswered, none)

/-- `ModernQuizBot._start_quiz` (the `startOrResume` entry point):
`quiz = get_quiz(...)`; `if not quiz` (None or the empty list) the quiz
is reported unavailable with no write.  If the stored row has
`completed`, offer a retake with no write.  Otherwise call
`_send_question(..., 0)` — the literal index 0, not
`progress.current_index`. -/
def start_quiz (quiz : Option (List Question)) (p : QuizProgress) :
    QuizProgress × List QuizProgress × RenderAction :=
  match quiz with
  | none => (p, [], RenderAction.quizUnavailable)
  | some qs =>
    if qs.isEmpty then (p, [], RenderAction.quizUnavailable)
    else if p.completed then (p, [], RenderAction.offerRetake p.score qs.length)
    else send_question qs p 0

/-- The `retake_<chapter>` branch of `_callback_handler`: load the row,
set `current_index = 0, score = 0, answers = [], completed = False`,
persist, then call `_start_quiz`.  The prior row `p` is discarded
entirely. -/
def retake (quiz : Option (List Question)) (p : QuizProgress) :
    QuizProgress × List QuizProgress × RenderAction :=
  let p0 : QuizProgress := { current_index := 0, score := 0, answers := [], completed := false }
  let r := start_quiz quiz p0
  (r.1, p0 :: r.2.1, r.2.2)

/-- One user-driven state-machine operation on a fixed chapter. -/
inductive Op
  | submit (qi ai : Nat)
  | startOrResume
  | retakeOp
deriving DecidableEq, Repr

/-- The progress row after one operation (the in-memory row, which
coincides with the last persisted state, or the unchanged row when
nothing was written). -/
def applyOp (quiz : List Question) (p : QuizProgress) : Op → QuizProgress
  | Op.submit qi ai => (handle_answer quiz p qi ai).1
  | Op.startOrResume => (start_quiz (some quiz) p).1
  | Op.retakeOp => (retake (some quiz) p).1

/-- The progress row after a sequence of operations. -/
def runOps (quiz : List Question) (p : QuizProgress) : List Op → QuizProgress
  | [] => p
  | op :: ops => runOps quiz (applyOp quiz p op) ops

/-- Run a list of `(questionIndex, optionIndex)` submissions in order. -/
def runAnswers (quiz : List Question) (p : QuizProgress) : List (Nat × Nat) → QuizProgress
  | [] => p
  | (qi, ai) :: rest => runAnswers quiz (handle_answer quiz p qi ai).1 rest

/-- The submissions `(k, correct k), (k+1, correct (k+1)), ...` that
answer every question from index `k` on correctly. -/
def correctAnswersFrom (quiz : List Question) (k : Nat) : List (Nat × Nat) :=
  if h : k < quiz.length then
    (k, (quiz.get ⟨k, h⟩).correct) :: correctAnswersFrom quiz (k + 1)
  else []
termination_by quiz.length - k

/-! ## Scoring and leaderboard aggregator -/

/-- A `user_progress` row joined with its `users` row, as read by the
aggregation queries: the user key, the joined display name, the `score`
column, and `completed_at` (`none` models SQL NULL — note that
`save_progress` never writes this column, so rows it produces have it
NULL). -/
structure ProgressRow where
  user_id : Nat
  name : String
  score : Int
  completed_at : Option Nat
deriving DecidableEq, Repr

/-- One leaderboard entry as built by `get_top_scorers_weekly` /
`get_all_scores`: `{"name": ..., "total_score": ..., "rank": idx + 1}`
(the `username` field is dropped; it plays no role in the claims). -/
structure ScoreEntry where
  name : String
  total_score : Int
  rank : Nat
deriving DecidableEq, Repr

/-- `GROUP BY u.user_id` with `SUM(up.score)`: fold the rows into
per-user `(user_id, name, total)` groups.  SQLite's pre-`ORDER BY`
group order is unspecified; first-occurrence order is used here (the
final order is fixed by the `ORDER BY` in any case). -/
def addRowToGroups (acc : List (Nat × String × Int)) (r : ProgressRow) :
    List (Nat × String × Int) :=
  if acc.any fun e => e.1 == r.user_id then
    acc.map fun e => if e.1 == r.user_id then (e.1, e.2.1, e.2.2 + r.score) else e
  else acc ++ [(r.user_id, r.name, r.score)]

def groupTotals (rows : List ProgressRow) : List (Nat × String × Int) :=
  rows.foldl addRowToGroups []

/-- The `ORDER BY total_score DESC` relation on groups. -/
def scoreDescRel (a b : Nat × String × Int) : Prop := b.2.2 ≤ a.2.2

instance : DecidableRel scoreDescRel := fun a b =>
  inferInstanceAs (Decidable (b.2.2 ≤ a.2.2))

instance : IsTotal (Nat × String × Int) scoreDescRel :=
  ⟨fun a b => le_total b.2.2 a.2.2⟩

instance : IsTrans (Nat × String × Int) scoreDescRel :=
  ⟨fun _ _ _ h h' => le_trans h' h⟩

/-- `enumerate(rows)` with `"rank": idx + 1`: assign consecutive ranks
starting from `i`. -/
def assignRanks : Nat → List (Nat × String × Int) → List ScoreEntry
  | _, [] => []
  | i, e :: es => { name := e.2.1, total_score := e.2.2, rank := i } :: assignRanks (i + 1) es

/-- `DatabaseManager.get_top_scorers_weekly`: keep rows with
`completed_at >= cutoff` (SQL `NULL >= ?` is not true, so NULL rows are
dropped), group by user summing `score`, `ORDER BY total_score DESC`
(tie order is unspecified in SQLite; a stable descending sort is used),
`LIMIT limit`, then rank entries `idx + 1` in output order. -/
def get_top_scorers_weekly (rows : List ProgressRow) (cutoff : Nat) (limit : Nat) :
    List ScoreEntry :=
  let qualified := rows.filter fun r =>
    match r.completed_at with
    | some t => decide (cutoff ≤ t)
    | none => false
  assignRanks 1 (((groupTotals qualified).insertionSort scoreDescRel).take limit)

/-- The `ORDER BY total_score ASC` relation on groups. -/
def scoreAscRel (a b : Nat × String × Int) : Prop := a.2.2 ≤ b.2.2

instance : DecidableRel scoreAscRel := fun a b =>
  inferInstanceAs (Decidable (a.2.2 ≤ b.2.2))

/-- `DatabaseManager.get_all_scores` (the admin "View All Scores
(Ascending)" report): same aggregation over all rows, no time window and
no limit, but `ORDER BY total_score ASC`. -/
def get_all_scores (rows : List ProgressRow) : List ScoreEntry :=
  assignRanks 1 ((groupTotals rows).insertionSort scoreAscRel)

/-- SQL `SUM(score)` over a selected set of rows: NULL (`none`) when the
set is empty, otherwise the sum. -/
def sql_sum (xs : List Int) : Option Int :=
  if xs.isEmpty then none else some (xs.foldl (· + ·) 0)

/-- `DatabaseManager.get_user_total_score`: `SELECT SUM(score) FROM
user_progress WHERE user_id = ?`, then `row[0] if row[0] else 0` — both
SQL NULL (no rows) and a falsy 0 sum are coerced to 0. -/
def get_user_total_score (rows : List ProgressRow) (uid : Nat) : Int :=
  match sql_sum ((rows.filter fun r => r.user_id == uid).map ProgressRow.score) with
  | none => 0
  | some v => if v = 0 then 0 else v

/-! ## Concrete fixtures used in closed statements -/

/-- A three-option question whose correct index is `c`. -/
def exQuestion (c : Nat) : Question :=
  { question := "q", options := ["a", "b", "c"], correct := c, explanation := "e" }

def exQuiz1 : List Question := [exQuestion 0]

def exQuiz2 : List Question := [exQuestion 0, exQuestion 1]

def exQuiz3 : List Question := [exQuestion 1, exQuestion 0, exQuestion 2]

/-- A row mid-way through `exQuiz3`: questions 0 and 1 answered, one of
them correctly, quiz not completed. -/
def exMidProgress : QuizProgress :=
  { current_index := 2, score := 1, answers := [0, 1], completed := false }

/-! ## Theorems -/

/-- C1 (counterexample): on a fresh record (`answers = []`) over a
two-question chapter, submitting `questionIndex = 1` — which differs
from `len(answers) = 0`, so the claim demands a `DuplicateOrStaleAnswer`
rejection with no mutation — is in fact accepted by `_handle_answer`
(its guard is `len(progress.answers) <= question_index`) and mutates the
record. -/
theorem handle_answer_accepts_future_index :
    (handle_answer exQuiz2 QuizProgress.fresh 1 0).2.2.1 ≠ Feedback.alreadyAnswered ∧
    (handle_answer exQuiz2 QuizProgress.fresh 1 0).2.1 ≠ [] ∧
    (handle_answer exQuiz2 QuizProgress.fresh 1 0).1 ≠ QuizProgress.fresh := by
  decide

/-- C2: publishing a second question list for the same chapter does not
replace the first.  `save_quiz`'s `INSERT OR REPLACE` never conflicts
(the only uniqueness constraint is the fresh autoincrement id), so a new
row is appended, and `get_quiz`'s un-ordered `fetchone()` returns the
oldest row: after publishing `[exQuestion 0]` and then `[exQuestion 1]`
for chapter 1, `get_quiz` still returns the old list. -/
theorem republish_returns_old_list :
    get_quiz (save_quiz (save_quiz CatalogDB.empty 1 [exQuestion 0]) 1 [exQuestion 1]) 1 =
      some [exQuestion 0] ∧
    ([exQuestion 0] : List Question) ≠ [exQuestion 1] := by
  decide

/-- C3: for a chapter whose published list is empty, `_start_quiz`
treats the quiz as unavailable (`if not quiz` catches the empty list),
so the chapter is never completed and no result is reported; and the
percentage computations of `_complete_quiz` and `create_progress_bar`
are undefined at `total = 0` (Python `ZeroDivisionError`, modelled as
`none`) rather than reporting 0% — with `_complete_quiz` persisting the
`completed = True` write before it crashes. -/
theorem empty_chapter_no_percentage :
    start_quiz (some []) QuizProgress.fresh =
      (QuizProgress.fresh, [], RenderAction.quizUnavailable) ∧
    completionPercentage 0 0 = none ∧
    progress_bar_percentage 1 0 = none ∧
    (complete_quiz [] QuizProgress.fresh).2.2 = none ∧
    (complete_quiz [] QuizProgress.fresh).2.1 =
      [{ QuizProgress.fresh with completed := true }] := by
  exact ⟨rfl, rfl, rfl, rfl, rfl⟩

/-- C4: on a not-completed record stored at `current_index = 2` over a
three-question chapter, `_start_quiz` does not resume at question 2: it
calls `_send_question(..., 0)`, rendering question 0 and persisting the
row with `current_index = 0` while keeping the old `answers`; any
subsequent answer to the re-shown question 0 is then rejected as already
answered, so the session is stuck.  (The completed branch does behave as
claimed: retake offer, no write.) -/
theorem start_quiz_restarts_at_zero :
    (start_quiz (some exQuiz3) exMidProgress).2.2 = RenderAction.showQuestion 0 ∧
    (start_quiz (some exQuiz3) exMidProgress).2.1 =
      [{ exMidProgress with current_index := 0 }] ∧
    (handle_answer exQuiz3 (start_quiz (some exQuiz3) exMidProgress).1 0 0).2.2.1 =
      Feedback.alreadyAnswered ∧
    (handle_answer exQuiz3 (start_quiz (some exQuiz3) exMidProgress).1 0 0).2.1 = [] ∧
    start_quiz (some exQuiz3) { exMidProgress with completed := true } =
      ({ exMidProgress with completed := true }, [], RenderAction.offerRetake 1 3) := by
  decide

/-- C5 (counterexample): answering the single question of a one-question
chapter correctly produces two persisted writes, not one; the write that
appends the answer and increments the score leaves `current_index`
unchanged at 0, and the write that sets `completed = true` still has
`current_index = 0 ≠ 1 = len(questions)`. -/
theorem submit_final_answer_two_writes :
    (handle_answer exQuiz1 QuizProgress.fresh 0 0).2.1 =
      [{ current_index := 0, score := 1, answers := [0], completed := false },
       { current_index := 0, score := 1, answers := [0], completed := true }] ∧
    (handle_answer exQuiz1 QuizProgress.fresh 0 0).2.1.length ≠ 1 ∧
    (handle_answer exQuiz1 QuizProgress.fresh 0 0).1.completed = true ∧
    (handle_answer exQuiz1 QuizProgress.fresh 0 0).1.current_index ≠ exQuiz1.length := by
  decide

/-- C6 (counterexample): `validate_quiz_data` accepts the empty question
set and accepts an entry with an empty prompt, both of which the spec's
validity predicate rejects. -/
theorem validate_accepts_empty_set_and_prompt :
    (validate_quiz_data [] = true ∧ specValidQuestionSet [] = false) ∧
    (validate_quiz_data
        [{ question := some "", options := some ["a", "b"], correct := some 0,
           explanation := some "e" }] = true ∧
     specValidQuestionSet
        [{ question := some "", options := some ["a", "b"], correct := some 0,
           explanation := some "e" }] = false) := by
  decide

/-- C7 (counterexample): starting from the fresh record on a
one-question chapter, the single operation "submit the correct answer to
question 0" ends in a persisted state with `score = 1 >
current_index = 0` and `answers.length = 1 ≠ 0 = current_index`,
violating the claimed invariant. -/
theorem invariant_fails_at_completion :
    ¬ ((runOps exQuiz1 QuizProgress.fresh [Op.submit 0 0]).score ≤
        (runOps exQuiz1 QuizProgress.fresh [Op.submit 0 0]).current_index) ∧
    (runOps exQuiz1 QuizProgress.fresh [Op.submit 0 0]).answers.length ≠
      (runOps exQuiz1 QuizProgress.fresh [Op.submit 0 0]).current_index := by
  decide

/-! ### Helper lemmas about `_send_question` and `_handle_answer` -/

theorem send_question_answers (quiz : List Question) (p : QuizProgress) (qi : Nat) :
    (send_question quiz p qi).1.answers = p.answers := by
  unfold send_question complete_quiz
  split <;> rfl

theorem send_question_score (quiz : List Question) (p : QuizProgress) (qi : Nat) :
    (send_question quiz p qi).1.score = p.score := by
  unfold send_question complete_quiz
  split <;> rfl

/-- The reduced form of `_handle_answer` in the accepted case. -/
theorem handle_answer_accepted_eq (quiz : List Question) (p : QuizProgress) (qi ai : Nat)
    (q : Question) (hq : quiz[qi]? = some q) (h : p.answers.length ≤ qi) :
    handle_answer quiz p qi ai =
      (let p1 : QuizProgress := { p with
          answers := p.answers ++ [ai],
          score := if ai = q.correct then p.score + 1 else p.score }
       let r := send_question quiz p1 (qi + 1)
       (r.1, p1 :: r.2.1,
        if ai = q.correct then Feedback.correctAnswer else Feedback.incorrectAnswer,
        some r.2.2)) := by
  unfold handle_answer
  rw [hq]
  simp only [if_pos h]

/-- C1 (amended): `_handle_answer` accepts a submission iff
`len(progress.answers) <= questionIndex < len(questions)` — so any
not-yet-reached index, not only the next expected one, is accepted and
appends `optionIndex` to `answers`; an index below `len(answers)` (a
resubmission of an already-answered question) is rejected with the
already-answered notice and no mutation; an index at or beyond
`len(questions)` raises `IndexError`, caught as a generic error, also
with no mutation. -/
theorem handle_answer_acceptance_cases (quiz : List Question) (p : QuizProgress) (qi ai : Nat) :
    (quiz.length ≤ qi →
      handle_answer quiz p qi ai = (p, [], Feedback.error, none)) ∧
    (qi < quiz.length → qi < p.answers.length →
      handle_answer quiz p qi ai = (p, [], Feedback.alreadyAnswered, none)) ∧
    (qi < quiz.length → p.answers.length ≤ qi →
      (handle_answer quiz p qi ai).1.answers = p.answers ++ [ai] ∧
      (handle_answer quiz p qi ai).2.1 ≠ []) := by
  refine ⟨fun hlen => ?_, fun hlt hdup => ?_, fun hlt hacc => ?_⟩
  · unfold handle_answer
    rw [List.getElem?_eq_none hlen]
  · unfold handle_answer
    rw [List.getElem?_eq_getElem hlt]
    simp only [if_neg (Nat.not_le.mpr hdup)]
  · rw [handle_answer_accepted_eq quiz p qi ai quiz[qi]
        (List.getElem?_eq_getElem hlt) hacc]
    exact ⟨send_question_answers .., List.cons_ne_nil _ _⟩

/-- C1 (amended) witness: the three cases at concrete inputs — an
out-of-range index errors without mutation, an already-answered index is
rejected without mutation, and a not-yet-reached index is accepted and
appended. -/
theorem handle_answer_acceptance_cases_witness :
    handle_answer exQuiz2 QuizProgress.fresh 5 0 =
      (QuizProgress.fresh, [], Feedback.error, none) ∧
    handle_answer exQuiz2 exMidProgress 0 1 =
      (exMidProgress, [], Feedback.alreadyAnswered, none) ∧
    (handle_answer exQuiz2 QuizProgress.fresh 0 1).1.answers = [] ++ [1] ∧
    (handle_answer exQuiz2 QuizProgress.fresh 0 1).2.1 ≠ [] := by
  refine ⟨(handle_answer_acceptance_cases exQuiz2 QuizProgress.fresh 5 0).1 (by decide),
    (handle_answer_acceptance_cases exQuiz2 exMidProgress 0 1).2.1 (by decide) (by decide),
    ((handle_answer_acceptance_cases exQuiz2 QuizProgress.fresh 0 1).2.2 (by decide) (by decide)).1,
    ((handle_answer_acceptance_cases exQuiz2 QuizProgress.fresh 0 1).2.2 (by decide) (by decide)).2⟩

/-- C5 (amended): an accepted submission performs exactly two persisted
writes.  The first appends `optionIndex` to `answers` and increments
`score` iff the answer is correct, leaving `current_index` and
`completed` unchanged.  The second, issued by `_send_question` /
`_complete_quiz`, sets `current_index := questionIndex + 1` when further
questions remain, and otherwise sets `completed := true` while leaving
`current_index` at its stale value (never equal to `len(questions)`). -/
theorem submit_accepted_write_sequence (quiz : List Question) (p : QuizProgress) (qi ai : Nat)
    (q : Question) (hq : quiz[qi]? = some q) (h : p.answers.length ≤ qi) :
    (handle_answer quiz p qi ai).2.1 =
      (let p1 : QuizProgress := { p with
          answers := p.answers ++ [ai],
          score := if ai = q.correct then p.score + 1 else p.score }
       if quiz.length ≤ qi + 1 then [p1, { p1 with completed := true }]
       else [p1, { p1 with current_index := qi + 1 }]) := by
  rw [handle_answer_accepted_eq quiz p qi ai q hq h]
  unfold send_question complete_quiz
  split <;> split <;> rfl

/-- C5 (amended) witness: the two-write sequences at concrete inputs,
one mid-chapter submission and one final submission. -/
theorem submit_accepted_write_sequence_witness :
    (handle_answer exQuiz2 QuizProgress.fresh 0 0).2.1 =
      [{ current_index := 0, score := 1, answers := [0], completed := false },
       { current_index := 1, score := 1, answers := [0], completed := false }] ∧
    (handle_answer exQuiz1 QuizProgress.fresh 0 1).2.1 =
      [{ current_index := 0, score := 0, answers := [1], completed := false },
       { current_index := 0, score := 0, answers := [1], completed := true }] := by
  constructor
  · rw [submit_accepted_write_sequence exQuiz2 QuizProgress.fresh 0 0 (exQuestion 0)
      (by decide) (by decide)]
    decide
  · rw [submit_accepted_write_sequence exQuiz1 QuizProgress.fresh 0 1 (exQuestion 0)
      (by decide) (by decide)]
    decide

/-- C6 (amended): `validate_quiz_data` accepts a question set iff every
entry (of a possibly empty list) carries all four required fields —
`question`, `options`, `correct`, `explanation` — with `options` a list
of length at least 2 and `0 <= correct < len(options)`.  The prompt text
is not inspected (an empty prompt passes) and the empty set passes. -/
theorem validate_quiz_data_characterization (qd : List RawEntry) :
    validate_quiz_data qd = true ↔
      ∀ e ∈ qd, (∃ s, e.question = some s) ∧ (∃ s, e.explanation = some s) ∧
        ∃ opts c, e.options = some opts ∧ e.correct = some c ∧
          2 ≤ opts.length ∧ 0 ≤ c ∧ c < (opts.length : Int) := by
  unfold validate_quiz_data
  rw [List.all_eq_true]
  constructor <;> intro h e he <;> have h' := h e he <;>
    obtain ⟨q, opts, c, ex⟩ := e <;>
    cases q <;> cases ex <;> cases opts <;> cases c <;> simp_all

/-- C6 (amended) witness: a singleton set with all four fields, two
options and an in-range correct index, accepted by the validator. -/
theorem validate_quiz_data_characterization_witness :
    validate_quiz_data
      [{ question := some "p", options := some ["a", "b"], correct := some 1,
         explanation := some "x" }] = true :=
  (validate_quiz_data_characterization
      [{ question := some "p", options := some ["a", "b"], correct := some 1,
         explanation := some "x" }]).mpr (by
    intro e he
    rw [List.mem_singleton] at he
    subst he
    exact ⟨⟨"p", rfl⟩, ⟨"x", rfl⟩, ["a", "b"], 1, rfl, rfl, by decide, by decide, by decide⟩)

/-! ### The invariant actually maintained by the state machine -/

/-- The invariant the reachable progress states satisfy:
`score ≤ answers.length ≤ len(questions)` and
`current_index ≤ len(questions)`.  (The spec's stronger
`score ≤ currentIndex` and `answers.length = currentIndex` fail: the
answer-accepting write leaves `current_index` one behind, permanently so
on completion.) -/
def progressInv (quiz : List Question) (p : QuizProgress) : Prop :=
  p.score ≤ p.answers.length ∧ p.answers.length ≤ quiz.length ∧
    p.current_index ≤ quiz.length

theorem progressInv_send_question (quiz : List Question) (p : QuizProgress) (qi : Nat)
    (h : progressInv quiz p) : progressInv quiz (send_question quiz p qi).1 := by
  unfold send_question complete_quiz
  by_cases hc : quiz.length ≤ qi
  · rw [if_pos hc]
    exact ⟨h.1, h.2.1, h.2.2⟩
  · rw [if_neg hc]
    exact ⟨h.1, h.2.1, Nat.le_of_lt (Nat.lt_of_not_le hc)⟩

theorem progressInv_handle_answer (quiz : List Question) (p : QuizProgress) (qi ai : Nat)
    (h : progressInv quiz p) : progressInv quiz (handle_answer quiz p qi ai).1 := by
  rcases hq : quiz[qi]? with _ | q
  · unfold handle_answer
    rw [hq]
    exact h
  · have hqi : qi < quiz.length := by
      by_contra hl
      rw [List.getElem?_eq_none (Nat.le_of_not_lt hl)] at hq
      exact Option.noConfusion hq
    by_cases hacc : p.answers.length ≤ qi
    · rw [handle_answer_accepted_eq quiz p qi ai q hq hacc]
      refine progressInv_send_question quiz _ _ ⟨?_, ?_, h.2.2⟩
      · show (if ai = q.correct then p.score + 1 else p.score) ≤ (p.answers ++ [ai]).length
        have h1 := h.1
        rw [List.length_append, List.length_singleton]
        split <;> omega
      · show (p.answers ++ [ai]).length ≤ quiz.length
        rw [List.length_append, List.length_singleton]
        omega
    · unfold handle_answer
      rw [hq]
      simp only [if_neg hacc]
      exact h

theorem progressInv_start_quiz (quiz : List Question) (p : QuizProgress)
    (h : progressInv quiz p) : progressInv quiz (start_quiz (some quiz) p).1 := by
  unfold start_quiz
  dsimp only
  by_cases he : quiz.isEmpty = true
  · rw [if_pos he]
    exact h
  · rw [if_neg he]
    by_cases hc : p.completed = true
    · rw [if_pos hc]
      exact h
    · rw [if_neg hc]
      exact progressInv_send_question quiz p 0 h

theorem progressInv_applyOp (quiz : List Question) (p : QuizProgress) (op : Op)
    (h : progressInv quiz p) : progressInv quiz (applyOp quiz p op) := by
  cases op with
  | submit qi ai => exact progressInv_handle_answer quiz p qi ai h
  | startOrResume => exact progressInv_start_quiz quiz p h
  | retakeOp =>
    exact progressInv_start_quiz quiz
      { current_index := 0, score := 0, answers := [], completed := false }
      ⟨Nat.le_refl 0, Nat.zero_le _, Nat.zero_le _⟩

theorem progressInv_runOps (quiz : List Question) (ops : List Op) :
    ∀ p : QuizProgress, progressInv quiz p → progressInv quiz (runOps quiz p ops) := by
  induction ops with
  | nil => exact fun p h => h
  | cons op ops ih => exact fun p h => ih _ (progressInv_applyOp quiz p op h)

/-- C7 (amended): starting from the lazily-created all-zero record,
after every sequence of submit / start-or-resume / retake operations the
persisted record satisfies `0 ≤ score ≤ answers.length ≤ len(questions)`
and `0 ≤ current_index ≤ len(questions)`.  The claimed
`score ≤ currentIndex` and `answers.length = currentIndex` do not hold
(see the counterexample): `current_index` lags one behind the answers
already recorded. -/
theorem progress_invariant_from_fresh (quiz : List Question) (ops : List Op) :
    progressInv quiz (runOps quiz QuizProgress.fresh ops) :=
  progressInv_runOps quiz ops QuizProgress.fresh
    ⟨Nat.le_refl 0, Nat.zero_le _, Nat.zero_le _⟩

/-! ### Leaderboard lemmas -/

theorem assignRanks_length (i : Nat) (l : List (Nat × String × Int)) :
    (assignRanks i l).length = l.length := by
  induction l generalizing i with
  | nil => rfl
  | cons x xs ih => simp [assignRanks, ih]

theorem assignRanks_ranks (i : Nat) (l : List (Nat × String × Int)) :
    (assignRanks i l).map ScoreEntry.rank = List.range' i l.length := by
  induction l generalizing i with
  | nil => rfl
  | cons x xs ih => simp [assignRanks, ih, List.range'_succ]

theorem mem_assignRanks {e : ScoreEntry} :
    ∀ {i : Nat} {l : List (Nat × String × Int)}, e ∈ assignRanks i l →
      ∃ y ∈ l, e.total_score = y.2.2 := by
  intro i l
  induction l generalizing i with
  | nil => intro h; exact absurd h (List.not_mem_nil e)
  | cons x xs ih =>
    intro h
    rcases List.mem_cons.mp h with he | he
    · exact ⟨x, List.mem_cons_self x xs, by rw [he]⟩
    · obtain ⟨y, hy, hey⟩ := ih he
      exact ⟨y, List.mem_cons_of_mem x hy, hey⟩

theorem pairwise_assignRanks (i : Nat) (l : List (Nat × String × Int))
    (h : List.Pairwise scoreDescRel l) :
    List.Pairwise (fun a b : ScoreEntry => b.total_score ≤ a.total_score)
      (assignRanks i l) := by
  induction l generalizing i with
  | nil => exact List.Pairwise.nil
  | cons x xs ih =>
    rcases h with _ | ⟨hx, hxs⟩
    refine List.Pairwise.cons ?_ (ih (i + 1) hxs)
    intro e he
    obtain ⟨y, hy, hey⟩ := mem_assignRanks he
    rw [hey]
    exact hx y hy

/-- C8: the user-facing weekly leaderboard
(`DatabaseManager.get_top_scorers_weekly`, `ORDER BY total_score DESC`)
lists entries in descending order of summed score and assigns dense
1-based ranks in output order; on totals A:10, B:30, C:20 it yields
B(1), C(2), A(3).  (The ascending `get_all_scores` is the separate admin
"View All Scores (Ascending)" report, labelled as such by its caller.) -/
theorem weekly_leaderboard_desc_dense_ranks :
    (∀ (rows : List ProgressRow) (cutoff limit : Nat),
      List.Pairwise (fun a b : ScoreEntry => b.total_score ≤ a.total_score)
        (get_top_scorers_weekly rows cutoff limit) ∧
      (get_top_scorers_weekly rows cutoff limit).map ScoreEntry.rank =
        List.range' 1 (get_top_scorers_weekly rows cutoff limit).length) ∧
    get_top_scorers_weekly
      [{ user_id := 1, name := "A", score := 10, completed_at := some 100 },
       { user_id := 2, name := "B", score := 30, completed_at := some 100 },
       { user_id := 3, name := "C", score := 20, completed_at := some 100 }] 0 10 =
      [{ name := "B", total_score := 30, rank := 1 },
       { name := "C", total_score := 20, rank := 2 },
       { name := "A", total_score := 10, rank := 3 }] := by
  constructor
  · intro rows cutoff limit
    constructor
    · unfold get_top_scorers_weekly
      exact pairwise_assignRanks 1 _
        (List.Pairwise.sublist (List.take_sublist _ _)
          (List.sorted_insertionSort scoreDescRel _))
    · unfold get_top_scorers_weekly
      rw [assignRanks_ranks, assignRanks_length]
  · decide

/-! ### Retake lemmas -/

/-- Submitting the correct answer to the next expected question is
accepted, extends `answers` by one and increments `score`. -/
theorem handle_answer_correct_step (quiz : List Question) (p : QuizProgress) (k : Nat)
    (h : k < quiz.length) (ha : p.answers.length = k) :
    (handle_answer quiz p k (quiz.get ⟨k, h⟩).correct).1.answers.length = k + 1 ∧
    (handle_answer quiz p k (quiz.get ⟨k, h⟩).correct).1.score = p.score + 1 := by
  rw [handle_answer_accepted_eq quiz p k (quiz.get ⟨k, h⟩).correct quiz[k]
    (List.getElem?_eq_getElem h) (Nat.le_of_eq ha)]
  have hget : quiz.get ⟨k, h⟩ = quiz[k] := rfl
  constructor
  · show (send_question quiz _ (k + 1)).1.answers.length = k + 1
    rw [send_question_answers, List.length_append, List.length_singleton, ha]
  · show (send_question quiz _ (k + 1)).1.score = p.score + 1
    rw [send_question_score]
    show (if (quiz.get ⟨k, h⟩).correct = quiz[k].correct then p.score + 1 else p.score) =
      p.score + 1
    rw [hget]
    exact if_pos rfl

/-- Answering every remaining question correctly, starting at the next
expected index `k`, raises the score by one per remaining question. -/
theorem runAnswers_correct_from (quiz : List Question) :
    ∀ (n k : Nat) (p : QuizProgress), quiz.length - k = n → p.answers.length = k →
      (runAnswers quiz p (correctAnswersFrom quiz k)).score = p.score + (quiz.length - k) := by
  intro n
  induction n with
  | zero =>
    intro k p hn _
    have hk : ¬ k < quiz.length := by omega
    rw [correctAnswersFrom, dif_neg hk, hn]
    rfl
  | succ m ih =>
    intro k p hn ha
    have hk : k < quiz.length := by omega
    rw [correctAnswersFrom, dif_pos hk]
    show (runAnswers quiz (handle_answer quiz p k (quiz.get ⟨k, hk⟩).correct).1
      (correctAnswersFrom quiz (k + 1))).score = p.score + (quiz.length - k)
    have hstep := handle_answer_correct_step quiz p k hk ha
    rw [ih (k + 1) _ (by omega) hstep.1, hstep.2]
    omega

/-- C9: the `retake_` callback unconditionally resets the stored record
to `current_index = 0, score = 0, answers = [], completed = false`,
persists that reset (twice, via the reset write and `_send_question`'s
write), presents question 0, and its result does not depend on the prior
record at all; answering every question correctly afterwards yields the
full score `len(questions)`, independent of the pre-retake answers. -/
theorem retake_resets_cleanly (quiz : List Question) (p p' : QuizProgress)
    (h : quiz ≠ []) :
    retake (some quiz) p = retake (some quiz) p' ∧
    (retake (some quiz) p).1 = QuizProgress.fresh ∧
    (retake (some quiz) p).2.1 = [QuizProgress.fresh, QuizProgress.fresh] ∧
    (retake (some quiz) p).2.2 = RenderAction.showQuestion 0 ∧
    (runAnswers quiz (retake (some quiz) p).1 (correctAnswersFrom quiz 0)).score =
      quiz.length := by
  have hfull := runAnswers_correct_from quiz quiz.length 0 QuizProgress.fresh rfl rfl
  obtain ⟨a, l, rfl⟩ : ∃ a l, quiz = a :: l := by
    cases quiz with
    | nil => exact absurd rfl h
    | cons a l => exact ⟨a, l, rfl⟩
  have hr : retake (some (a :: l)) p =
      (QuizProgress.fresh, [QuizProgress.fresh, QuizProgress.fresh],
        RenderAction.showQuestion 0) := rfl
  refine ⟨rfl, ?_, ?_, ?_, ?_⟩
  · rw [hr]
  · rw [hr]
  · rw [hr]
  · rw [hr]
    simpa [QuizProgress.fresh] using hfull

/-- C9 witness: the retake reset and the subsequent full-score run on
the concrete two-question chapter. -/
theorem retake_resets_cleanly_witness :
    retake (some exQuiz2) exMidProgress = retake (some exQuiz2) QuizProgress.fresh ∧
    (retake (some exQuiz2) exMidProgress).1 = QuizProgress.fresh ∧
    (runAnswers exQuiz2 (retake (some exQuiz2) exMidProgress).1
      (correctAnswersFrom exQuiz2 0)).score = exQuiz2.length := by
  have hmain := retake_resets_cleanly exQuiz2 exMidProgress QuizProgress.fresh (by decide)
  exact ⟨hmain.1, hmain.2.1, hmain.2.2.2.2⟩

/-- C10: `get_user_total_score` returns 0 both for a user with no
progress rows (the SQL SUM is NULL, coerced by `row[0] if row[0] else
0`) and for a user all of whose rows have score 0. -/
theorem total_score_null_coerced_to_zero (rows : List ProgressRow) (uid : Nat) :
    ((rows.filter fun r => r.user_id == uid) = [] →
      get_user_total_score rows uid = 0) ∧
    ((∀ r ∈ rows, r.user_id = uid → r.score = 0) →
      get_user_total_score rows uid = 0) := by
  constructor
  · intro hempty
    unfold get_user_total_score sql_sum
    rw [hempty]
    rfl
  · intro hzero
    unfold get_user_total_score sql_sum
    have hfold : ∀ (xs : List Int) (a : Int), (∀ x ∈ xs, x = 0) →
        xs.foldl (· + ·) a = a := by
      intro xs
      induction xs with
      | nil => intro a _; rfl
      | cons x xs ih =>
        intro a hx
        have hx0 : x = 0 := hx x (List.mem_cons_self x xs)
        show xs.foldl (· + ·) (a + x) = a
        rw [hx0, add_zero]
        exact ih a fun y hy => hx y (List.mem_cons_of_mem x hy)
    have hall : ∀ x ∈ (rows.filter fun r => r.user_id == uid).map ProgressRow.score,
        x = 0 := by
      intro x hx
      obtain ⟨r, hr, hrx⟩ := List.mem_map.mp hx
      have hr' := List.mem_filter.mp hr
      exact hrx ▸ hzero r hr'.1 (by simpa using hr'.2)
    by_cases he :
        ((rows.filter fun r => r.user_id == uid).map ProgressRow.score).isEmpty = true
    · rw [if_pos he]
    · rw [if_neg he, hfold _ 0 hall]
      rfl

/-- C10 witness: an empty store and a store holding only zero-score rows
for the user both report total 0. -/
theorem total_score_null_coerced_to_zero_witness :
    get_user_total_score [] 5 = 0 ∧
    get_user_total_score
      [{ user_id := 5, name := "A", score := 0, completed_at := none }] 5 = 0 := by
  refine ⟨(total_score_null_coerced_to_zero [] 5).1 rfl,
    (total_score_null_coerced_to_zero
      [{ user_id := 5, name := "A", score := 0, completed_at := none }] 5).2 ?_⟩
  intro r hr _
  rw [List.mem_singleton] at hr
  rw [hr]

end QuizBot
